import Mathlib

/-!
Verification of the luziadev/mcp-server repository.

The development shallowly embeds the parts of the TypeScript source that the
specification talks about: the MCP request dispatcher (`src/server.ts`), the
shared tool error handler (`src/tools/error-handler.ts`), the Luzia API client
(`src/api-client.ts`), the tool handlers (`src/tools/*.ts`), the prompt
generators (`src/prompts/*.ts`), and the HTTP session map (`src/index.ts`).

Modelling conventions:
- JavaScript numbers are modelled as `Rat`; the claims under scrutiny only use
  exact field arithmetic (+, -, *, /) and comparisons on concrete values.
- Nullable fields are `Option`; a fallible upstream call is a function the
  handler receives, returning `Except ApiError _` or `Option _`.
- Locale-dependent numeric rendering (`toLocaleString`) is presentation detail
  declared out of scope by the spec (section 1); formatted rows keep only the
  structurally relevant string pieces.
-/

namespace Luzia

/-- Result of a tool call: one text content block plus the error flag
(`isError` is absent-or-false for success, true for flagged errors). -/
structure ToolResult where
  text : String
  isError : Bool
deriving Repr, DecidableEq

/-- Typed upstream error, from `api-client.ts`: HTTP status, message, and
optional details parsed from the error body. -/
structure ApiError where
  status : Nat
  message : String
  details : Option String
deriving Repr, DecidableEq

/-- Classification predicate `ApiError.isNotFound` (status 404). -/
def ApiError.isNotFound (e : ApiError) : Bool := e.status == 404

/-- Classification predicate `ApiError.isAuthError` (status 401 or 403). -/
def ApiError.isAuthError (e : ApiError) : Bool := e.status == 401 || e.status == 403

/-- Classification predicate `ApiError.isRateLimitError` (status 429). -/
def ApiError.isRateLimitError (e : ApiError) : Bool := e.status == 429

/-- Classification predicate `ApiError.isUnavailable` (status 503). -/
def ApiError.isUnavailable (e : ApiError) : Bool := e.status == 503

/-- JavaScript `a || b` on `details`/`message` pairs: an absent or empty
`details` string is falsy and falls back to `message`. -/
def jsOrStr (a : Option String) (b : String) : String :=
  match a with
  | none => b
  | some s => if s = "" then b else s

/-- The shared `handleApiError` of `tools/error-handler.ts`: branches on the
classification predicates in source order (404, 503, 429, generic). -/
def handleApiError (e : ApiError) : ToolResult :=
  if e.isNotFound then
    ⟨"Not found: " ++ jsOrStr e.details e.message, true⟩
  else if e.isUnavailable then
    ⟨"Service unavailable: " ++ jsOrStr e.details e.message, true⟩
  else if e.isRateLimitError then
    ⟨"Rate limit exceeded. Please try again later.", true⟩
  else
    ⟨"API error: " ++ jsOrStr e.details e.message, true⟩

/-- Exchange metadata record from `api-client.ts`. -/
structure Exchange where
  id : String
  name : String
  status : String
  websiteUrl : Option String
deriving Repr, DecidableEq

/-- Markdown body of `formatExchangesResponse` in `tools/get-exchanges.ts`
(status icon per exchange, then a footer). -/
def formatExchangesResponse (exchangesList : List Exchange) : String :=
  let header := "## Supported Cryptocurrency Exchanges\n\nFound **"
      ++ toString exchangesList.length ++ "** active exchanges:\n"
  let body := exchangesList.foldl (fun acc ex =>
    let statusIcon := if ex.status = "operational" then "🟢" else "🟠"
    let site := match ex.websiteUrl with
      | some u => "\n- **Website**: " ++ u
      | none => ""
    acc ++ "\n### " ++ ex.name ++ " (`" ++ ex.id ++ "`)\n- **Status**: "
      ++ statusIcon ++ " " ++ ex.status ++ site ++ "\n") header
  body ++ "\n---\n*Use `get_ticker` or `get_tickers` to fetch price data from these exchanges.*"

/-- The `executeGetExchanges` handler of `tools/get-exchanges.ts`. It does NOT
delegate to the shared `handleToolError`: it renders every `ApiError` itself
with the fixed prefix "API error: ", regardless of the status code. The
upstream call is passed in as its result. -/
def executeGetExchanges (fetched : Except ApiError (List Exchange)) : ToolResult :=
  match fetched with
  | .ok exchanges => ⟨formatExchangesResponse exchanges, false⟩
  | .error e => ⟨"API error: " ++ jsOrStr e.details e.message, true⟩

/-- Routing result of the CallTool dispatcher in `server.ts`. -/
inductive ToolDispatch where
  | ticker
  | tickers
  | exchanges
  | markets
  | unknown (name : String)
deriving Repr, DecidableEq

/-- The CallTool `switch` in `registerToolHandlers` (`server.ts`): only four
tool names have a case; everything else falls to the "Unknown tool" arm. -/
def dispatchToolCall (name : String) : ToolDispatch :=
  if name = "get_ticker" then .ticker
  else if name = "get_tickers" then .tickers
  else if name = "get_exchanges" then .exchanges
  else if name = "get_markets" then .markets
  else .unknown name

/-- Tool names in the ListTools response of `registerToolHandlers`. -/
def listedToolNames : List String :=
  ["get_ticker", "get_tickers", "get_exchanges", "get_markets"]

/-- Tool names declared as "All available tools" in `tools/index.ts`. -/
def declaredToolNames : List String :=
  ["get_ticker", "get_tickers", "get_history", "get_exchanges", "get_markets"]

/-- Routing result of the GetPrompt dispatcher in `server.ts`. -/
inductive PromptDispatch where
  | analyzePrice
  | compareExchanges
  | unknown (name : String)
deriving Repr, DecidableEq

/-- The GetPrompt `switch` in `registerPromptHandlers` (`server.ts`): only two
prompt names have a case; everything else falls to the "Unknown prompt" arm. -/
def dispatchGetPrompt (name : String) : PromptDispatch :=
  if name = "analyze_price_movement" then .analyzePrice
  else if name = "compare_exchanges" then .compareExchanges
  else .unknown name

/-- Prompt names in the ListPrompts response of `registerPromptHandlers`. -/
def listedPromptNames : List String :=
  ["analyze_price_movement", "compare_exchanges"]

/-- Prompt names declared as "All available prompts" in `prompts/index.ts`. -/
def declaredPromptNames : List String :=
  ["analyze_price_movement", "analyze_ohlcv", "compare_exchanges"]

/-- C1: the dispatcher does NOT route `get_history` or `analyze_ohlcv`: both
fall through to the Unknown fallback and are absent from the list responses,
although `tools/index.ts` and `prompts/index.ts` declare them among "All
available tools"/"All available prompts" and export their fully implemented
handlers. The claim (and the index modules) say they are routed and listed;
the `server.ts` switch omits them. -/
theorem c1_get_history_analyze_ohlcv_unrouted :
    dispatchToolCall "get_history" = ToolDispatch.unknown "get_history"
    ∧ "get_history" ∉ listedToolNames
    ∧ "get_history" ∈ declaredToolNames
    ∧ dispatchGetPrompt "analyze_ohlcv" = PromptDispatch.unknown "analyze_ohlcv"
    ∧ "analyze_ohlcv" ∉ listedPromptNames
    ∧ "analyze_ohlcv" ∈ declaredPromptNames := by
  refine ⟨rfl, ?_, ?_, rfl, ?_, ?_⟩ <;> decide

/-- C4 counterexample: `get_exchanges` does not delegate to the shared error
handler, so an `ApiError` with status 429 is rendered with the generic
"API error: " prefix and its details verbatim — not as the fixed rate-limit
literal the claim promises for every tool. -/
theorem c4_get_exchanges_429_counterexample :
    executeGetExchanges (.error ⟨429, "Too Many Requests", some "burst quota hit"⟩)
      = ⟨"API error: burst quota hit", true⟩
    ∧ ("API error: burst quota hit" : String)
        ≠ "Rate limit exceeded. Please try again later." := by
  exact ⟨rfl, by decide⟩

/-- C4 amended: every tool that delegates to the shared `handleApiError`
(get_ticker, get_tickers, get_history, get_markets) renders a status-429
`ApiError` as the fixed rate-limit literal regardless of its details, and
renders a status-404 error with its details (or, when absent/empty, its
message) verbatim; `get_exchanges` instead renders every `ApiError`, the 429
case included, as "API error: " followed by the details-or-message. -/
theorem c4_apiError_rendering_amended (e : ApiError) :
    (e.status = 429 →
      handleApiError e = ⟨"Rate limit exceeded. Please try again later.", true⟩)
    ∧ (e.status = 404 →
      handleApiError e = ⟨"Not found: " ++ jsOrStr e.details e.message, true⟩)
    ∧ executeGetExchanges (.error e)
        = ⟨"API error: " ++ jsOrStr e.details e.message, true⟩ := by
  refine ⟨fun h429 => ?_, fun h404 => ?_, rfl⟩
  · simp [handleApiError, ApiError.isNotFound, ApiError.isUnavailable,
      ApiError.isRateLimitError, h429]
  · simp [handleApiError, ApiError.isNotFound, h404]

/-- C4 amended, witness: concrete 429 and 404 errors exercise both implications
of `c4_apiError_rendering_amended`. -/
theorem c4_apiError_rendering_amended_witness :
    (handleApiError ⟨429, "m", some "d"⟩
        = ⟨"Rate limit exceeded. Please try again later.", true⟩)
    ∧ (handleApiError ⟨404, "m", some "gone"⟩ = ⟨"Not found: gone", true⟩) :=
  ⟨(c4_apiError_rendering_amended ⟨429, "m", some "d"⟩).1 rfl,
   (c4_apiError_rendering_amended ⟨404, "m", some "gone"⟩).2.1 rfl⟩

/-- JavaScript `String.replace` with a single-character pattern: replace the
first occurrence of `t` by `r` and leave the rest untouched. This is the
operation both `symbolToUrl` (`symbol.replace('/', '-')`) and the ticker
resource URI handler (`symbol.replace('-', '/')`) perform. -/
def replaceFirstChar (t r : Char) : List Char → List Char
  | [] => []
  | c :: cs => if c = t then r :: cs else c :: replaceFirstChar t r cs

/-- The API client's `symbolToUrl`: first `/` becomes `-`. -/
def symbolToUrl (s : String) : String := ⟨replaceFirstChar '/' '-' s.data⟩

/-- The resource handler's inverse direction: first `-` becomes `/`. -/
def symbolFromUrl (s : String) : String := ⟨replaceFirstChar '-' '/' s.data⟩

/-- Replacing skips over a prefix that does not contain the target. -/
theorem replaceFirstChar_append_not_mem (t r : Char) (xs l : List Char)
    (h : t ∉ xs) :
    replaceFirstChar t r (xs ++ l) = xs ++ replaceFirstChar t r l := by
  induction xs with
  | nil => rfl
  | cons c cs ih =>
    have hct : ¬(c = t) := fun hc => h (hc ▸ List.mem_cons_self c cs)
    have hmem : t ∉ cs := fun hm => h (List.mem_cons_of_mem c hm)
    simp [replaceFirstChar, hct, ih hmem]

/-- C5: for every well-formed symbol `X/Y` whose components contain neither
separator character, converting to URL form (`symbolToUrl`) and back
(`symbolFromUrl`, the resource handler's substitution) restores the original
string: the two single-substitution directions are mutually inverse on
well-formed inputs. -/
theorem c5_symbol_roundtrip (X Y : String)
    (hx1 : '/' ∉ X.data) (hx2 : '-' ∉ X.data)
    (hy1 : '/' ∉ Y.data) (hy2 : '-' ∉ Y.data) :
    symbolFromUrl (symbolToUrl (X ++ "/" ++ Y)) = X ++ "/" ++ Y := by
  have hdata : (X ++ "/" ++ Y).data = X.data ++ '/' :: Y.data := by
    simp [String.data_append]
  apply String.ext
  show replaceFirstChar '-' '/' (replaceFirstChar '/' '-' (X ++ "/" ++ Y).data)
      = (X ++ "/" ++ Y).data
  rw [hdata, replaceFirstChar_append_not_mem _ _ _ _ hx1]
  have h1 : replaceFirstChar '/' '-' ('/' :: Y.data) = '-' :: Y.data := by
    simp [replaceFirstChar]
  rw [h1, replaceFirstChar_append_not_mem _ _ _ _ hx2]
  simp [replaceFirstChar]

/-- C5, witness: the round-trip at the concrete symbol `BTC/USDT`. -/
theorem c5_symbol_roundtrip_witness :
    symbolFromUrl (symbolToUrl ("BTC" ++ "/" ++ "USDT")) = "BTC" ++ "/" ++ "USDT" :=
  c5_symbol_roundtrip "BTC" "USDT" (by decide) (by decide) (by decide) (by decide)

/-- Ticker record from `api-client.ts`: every numeric field is independently
nullable. -/
structure Ticker where
  symbol : String
  exchange : String
  last : Option ℚ
  bid : Option ℚ
  ask : Option ℚ
  high : Option ℚ
  low : Option ℚ
  «open» : Option ℚ
  volume : Option ℚ
  quoteVolume : Option ℚ
  change : Option ℚ
  changePercent : Option ℚ
  timestamp : String
deriving Repr, DecidableEq

/-- The client's `getTicker`: lowercases the exchange, converts the symbol to
URL form, performs the request (modelled by `fetch`), and converts an
`ApiError` that `isNotFound` into an absent (`none`) result instead of
re-raising; every other error propagates. -/
def clientGetTicker (fetch : String → String → Except ApiError Ticker)
    (exchange symbol : String) : Except ApiError (Option Ticker) :=
  match fetch exchange.toLower (symbolToUrl symbol) with
  | .ok t => .ok (some t)
  | .error e => if e.isNotFound then .ok none else .error e

/-- Raw arguments of the `get_ticker` tool before zod validation. -/
structure GetTickerArgs where
  exchange : Option String
  symbol : Option String
deriving Repr, DecidableEq

/-- Zod schema of `get_ticker`: both fields required, min length 1. -/
def parseGetTickerArgs (a : GetTickerArgs) : Option (String × String) :=
  match a.exchange, a.symbol with
  | some ex, some sym =>
    if 1 ≤ ex.length ∧ 1 ≤ sym.length then some (ex, sym) else none
  | _, _ => none

/-- Flagged result of a zod validation failure. The zod-generated message text
is abstracted to a constant; no claim depends on its wording. -/
def invalidInputResult : ToolResult := ⟨"Invalid input", true⟩

/-- Header line of `formatTickerResponse` in `tools/get-ticker.ts`. The
numeric markdown body below it is locale-formatted presentation detail
(spec section 1 puts formatting out of scope); no claim inspects it. -/
def formatTickerResponse (t : Ticker) : String :=
  "## " ++ t.symbol ++ " on " ++ t.exchange.toUpper

/-- The `executeGetTicker` handler of `tools/get-ticker.ts`: validate, call
`clientGetTicker` with lowercased exchange and uppercased symbol, map an
absent ticker to the flagged "Ticker not found" text, and delegate thrown
`ApiError`s to the shared handler. -/
def executeGetTicker (fetch : String → String → Except ApiError Ticker)
    (args : GetTickerArgs) : ToolResult :=
  match parseGetTickerArgs args with
  | none => invalidInputResult
  | some (exchange, symbol) =>
    match clientGetTicker fetch exchange.toLower symbol.toUpper with
    | .ok (some t) => ⟨formatTickerResponse t, false⟩
    | .ok none =>
      ⟨"Ticker not found for " ++ symbol ++ " on " ++ exchange
        ++ ". The symbol may not be available or the exchange may be temporarily unavailable.",
        true⟩
    | .error e => handleApiError e

/-- An upstream that answers every ticker request with a bare 404. -/
def fetch404 : String → String → Except ApiError Ticker :=
  fun _ _ => .error ⟨404, "Not Found", none⟩

/-- C2 counterexample: on an upstream 404 the client layer does return an
absent ticker, and the tool's text names the symbol and exchange, but the
result's error flag IS set (`isError: true` in `tools/get-ticker.ts`),
contradicting the claim that the message is non-flagged. -/
theorem c2_ticker_404_flagged_counterexample :
    clientGetTicker fetch404 "binance" "BTC/USDT" = .ok none
    ∧ (executeGetTicker fetch404 ⟨some "binance", some "BTC/USDT"⟩).isError = true := by
  exact ⟨rfl, rfl⟩

/-- C2 amended: when the upstream answers the ticker request with a status-404
`ApiError`, the client's `getTicker` returns an absent value (`none`) rather
than raising, and `executeGetTicker` returns a result whose text contains the
requested symbol and exchange and whose error flag IS set. -/
theorem c2_ticker_404_amended
    (fetch : String → String → Except ApiError Ticker)
    (args : GetTickerArgs) (exchange symbol : String) (e : ApiError)
    (hparse : parseGetTickerArgs args = some (exchange, symbol))
    (hfetch : fetch exchange.toLower.toLower (symbolToUrl symbol.toUpper) = .error e)
    (h404 : e.status = 404) :
    clientGetTicker fetch exchange.toLower symbol.toUpper = .ok none
    ∧ executeGetTicker fetch args
        = ⟨"Ticker not found for " ++ symbol ++ " on " ++ exchange
            ++ ". The symbol may not be available or the exchange may be temporarily unavailable.",
            true⟩ := by
  have hc : clientGetTicker fetch exchange.toLower symbol.toUpper = .ok none := by
    unfold clientGetTicker
    rw [hfetch]
    simp [ApiError.isNotFound, h404]
  refine ⟨hc, ?_⟩
  unfold executeGetTicker
  rw [hparse]
  dsimp only
  rw [hc]

/-- C2 amended, witness: the always-404 upstream at `binance`/`BTC/USDT`. -/
theorem c2_ticker_404_amended_witness :
    clientGetTicker fetch404 "coinbase".toLower "ETH/USD".toUpper = .ok none
    ∧ executeGetTicker fetch404 ⟨some "coinbase", some "ETH/USD"⟩
        = ⟨"Ticker not found for ETH/USD on coinbase"
            ++ ". The symbol may not be available or the exchange may be temporarily unavailable.",
            true⟩ :=
  c2_ticker_404_amended fetch404 ⟨some "coinbase", some "ETH/USD"⟩
    "coinbase" "ETH/USD" ⟨404, "Not Found", none⟩ (by decide) rfl rfl

/-- A single OHLCV candlestick from `api-client.ts`. -/
structure OhlcvCandle where
  timestamp : Int
  «open» : ℚ
  high : ℚ
  low : ℚ
  close : ℚ
  volume : ℚ
  quoteVolume : Option ℚ
  trades : Option Int
deriving Repr, DecidableEq

/-- Response of the history endpoint (`api-client.ts`). -/
structure OhlcvResponse where
  exchange : String
  symbol : String
  interval : String
  candles : List OhlcvCandle
  count : Nat
  start : Int
  «end» : Int
deriving Repr, DecidableEq

/-- The interval enum of the `get_history` zod schema in
`tools/get-history.ts`: `z.enum(['1m', '5m', '15m', '1h', '4h', '1d'])`. -/
def historyIntervals : List String := ["1m", "5m", "15m", "1h", "4h", "1d"]

/-- Raw arguments of the `get_history` tool before zod validation. -/
structure GetHistoryArgs where
  exchange : Option String
  symbol : Option String
  interval : Option String
  start : Option Int
  «end» : Option Int
  limit : Option ℚ
deriving Repr, DecidableEq

/-- Parsed `get_history` input. -/
structure GetHistoryInput where
  exchange : String
  symbol : String
  interval : Option String
  start : Option Int
  «end» : Option Int
  limit : Option ℚ
deriving Repr, DecidableEq

/-- Optional-interval check of the schema: absent passes, present must be in
the enum. -/
def intervalOk : Option String → Bool
  | none => true
  | some iv => decide (iv ∈ historyIntervals)

/-- Optional-limit check of the schema: `z.number().min(1).max(500).optional()`. -/
def historyLimitOk : Option ℚ → Bool
  | none => true
  | some l => decide (1 ≤ l ∧ l ≤ 500)

/-- Zod schema of `get_history`: exchange and symbol required (min length 1),
interval restricted to the enum, limit restricted to [1, 500]. -/
def parseGetHistoryArgs (a : GetHistoryArgs) : Option GetHistoryInput :=
  match a.exchange, a.symbol with
  | some ex, some sym =>
    if 1 ≤ ex.length ∧ 1 ≤ sym.length then
      if intervalOk a.interval then
        if historyLimitOk a.limit then
          some ⟨ex, sym, a.interval, a.start, a.«end», a.limit⟩
        else none
      else none
    else none
  | _, _ => none

/-- Table-row selection of `formatHistoryResponse`: `candles.slice(-10)`, the
at-most-10 most recent candles of the (timestamp-ascending) series. -/
def recentHistoryCandles (candles : List OhlcvCandle) : List OhlcvCandle :=
  candles.drop (candles.length - 10)

/-- Header line of `formatHistoryResponse` in `tools/get-history.ts`; the
numeric summary body is locale-formatted presentation detail (spec section 1),
and the table rows are exactly `recentHistoryCandles`. -/
def formatHistoryResponse (data : OhlcvResponse) : String :=
  "## " ++ data.symbol ++ " OHLCV on " ++ data.exchange.toUpper

/-- The `executeGetHistory` handler of `tools/get-history.ts`: validate, call
the client (modelled by `fetch`), treat an empty candle series as an
informational (non-flagged) message, and delegate `ApiError`s to the shared
handler. -/
def executeGetHistory
    (fetch : String → String → GetHistoryInput → Except ApiError OhlcvResponse)
    (args : GetHistoryArgs) : ToolResult :=
  match parseGetHistoryArgs args with
  | none => invalidInputResult
  | some i =>
    match fetch i.exchange.toLower i.symbol.toUpper i with
    | .error e => handleApiError e
    | .ok data =>
      if data.candles = [] then
        ⟨"No candle data found for " ++ i.symbol ++ " on " ++ i.exchange
          ++ " with interval " ++ i.interval.getD "1h"
          ++ ". The symbol may not have history data yet or the time range may be empty.",
          false⟩
      else
        ⟨formatHistoryResponse data, false⟩

/-- C3 counterexample: the interval string `4h` is outside the claimed set
but passes `get_history` input validation (the source enum also contains
`4h`), so it is not rejected before the upstream call. -/
theorem c3_interval_4h_counterexample :
    (parseGetHistoryArgs ⟨some "binance", some "BTC/USDT", some "4h", none, none, none⟩).isSome
      = true
    ∧ "4h" ∉ (["1m", "5m", "15m", "1h", "1d"] : List String) := by
  exact ⟨rfl, by decide⟩

/-- C3 amended: a supplied interval passes `get_history` validation exactly
when it is one of 1m, 5m, 15m, 1h, 4h, 1d (the source enum, which also
contains 4h); a supplied limit must lie in [1, 500]; any validation failure
produces the flagged invalid-input result without consulting the upstream
(the result is independent of the fetch function); and the candle table of a
successful non-empty result holds the at-most-10 most recent candles — a
suffix of the returned series of length `min 10 (series length)`. -/
theorem c3_history_validation_amended
    (ex sym iv : String) (l : ℚ)
    (hex : 1 ≤ ex.length) (hsym : 1 ≤ sym.length) :
    ((parseGetHistoryArgs ⟨some ex, some sym, some iv, none, none, some l⟩).isSome
        ↔ iv ∈ historyIntervals ∧ 1 ≤ l ∧ l ≤ 500)
    ∧ (∀ args, parseGetHistoryArgs args = none →
        ∀ f g, executeGetHistory f args = executeGetHistory g args)
    ∧ (∀ candles : List OhlcvCandle,
        (recentHistoryCandles candles).length = min 10 candles.length
        ∧ recentHistoryCandles candles <:+ candles) := by
  refine ⟨?_, ?_, ?_⟩
  · by_cases hiv : iv ∈ historyIntervals
      <;> by_cases hl : 1 ≤ l ∧ l ≤ 500
      <;> simp [parseGetHistoryArgs, intervalOk, historyLimitOk, hex, hsym, hiv, hl]
  · intro args hnone f g
    unfold executeGetHistory
    rw [hnone]
  · intro candles
    refine ⟨?_, List.drop_suffix _ _⟩
    rw [recentHistoryCandles, List.length_drop]
    omega

/-- C3 amended, witness: a valid input with interval `1h` and limit 100, the
empty parse at missing exchange, and the slice on a 2-candle series. -/
theorem c3_history_validation_amended_witness :
    ((parseGetHistoryArgs ⟨some "binance", some "BTC/USDT", some "1h", none, none,
        some 100⟩).isSome
      ↔ "1h" ∈ historyIntervals ∧ (1 : ℚ) ≤ 100 ∧ (100 : ℚ) ≤ 500)
    ∧ (∀ args, parseGetHistoryArgs args = none →
        ∀ f g, executeGetHistory f args = executeGetHistory g args)
    ∧ (∀ candles : List OhlcvCandle,
        (recentHistoryCandles candles).length = min 10 candles.length
        ∧ recentHistoryCandles candles <:+ candles) :=
  c3_history_validation_amended "binance" "BTC/USDT" "1h" 100 (by decide) (by decide)

/-- Raw arguments of the `get_markets` tool before zod validation. The
`active` field stands for an extra key a caller might pass: the declared
schema has no such property and the non-strict zod object parse ignores it. -/
structure GetMarketsArgs where
  exchange : Option String
  quote : Option String
  limit : Option ℚ
  active : Option Bool
deriving Repr, DecidableEq

/-- Parsed `get_markets` input (limit defaulted to 50 by the schema). -/
structure GetMarketsInput where
  exchange : String
  quote : Option String
  limit : ℚ
deriving Repr, DecidableEq

/-- Optional-quote check of the schema: `z.string().min(1).optional()`. -/
def quoteOk : Option String → Bool
  | none => true
  | some q => decide (1 ≤ q.length)

/-- Limit handling of the schema: `z.number().min(1).max(100).default(50)`. -/
def marketsLimit : Option ℚ → Option ℚ
  | none => some 50
  | some l => if 1 ≤ l ∧ l ≤ 100 then some l else none

/-- Zod schema of `get_markets`: exchange required (min length 1), optional
quote, bounded defaulted limit. The `active` key is not part of the schema
and is never read. -/
def parseGetMarketsArgs (a : GetMarketsArgs) : Option GetMarketsInput :=
  match a.exchange with
  | some ex =>
    if 1 ≤ ex.length then
      if quoteOk a.quote then
        (marketsLimit a.limit).map (fun l => ⟨ex, a.quote, l⟩)
      else none
    else none
  | none => none

/-- Options record the handlers pass to the client's `getMarkets`. -/
structure MarketsRequest where
  exchange : String
  base : Option String
  quote : Option String
  active : Option Bool
  limit : Option ℚ
  offset : Option ℚ
deriving Repr, DecidableEq

/-- The upstream call issued by `executeGetMarkets` in `tools/get-markets.ts`:
`apiClient.getMarkets(exchange, ... quote, active: true, limit ...)` — the
active filter is hard-coded to true. -/
def buildMarketsRequest (i : GetMarketsInput) : MarketsRequest :=
  ⟨i.exchange, none, i.quote, some true, some i.limit, none⟩

/-- Serialization of the active option in the client's `getMarkets`
(`api-client.ts`): `query.active = options.active ? 'true' : 'false'`. -/
def marketsQueryActive (r : MarketsRequest) : Option String :=
  r.active.map (fun b => if b then "true" else "false")

/-- Property names of `getMarketsTool.inputSchema` in `tools/get-markets.ts`. -/
def getMarketsSchemaProperties : List String := ["exchange", "quote", "limit"]

/-- C9: every valid `get_markets` input yields an upstream markets request
with the active filter fixed to `true` (serialized as `active=true` in the
query string); the declared input schema exposes no `active` property, and an
`active` key supplied by the caller is ignored by the parse, so inactive
markets can never appear in a `get_markets` result even though the client
supports querying them. -/
theorem c9_markets_active_fixed_true (a : GetMarketsArgs) (i : GetMarketsInput)
    (h : parseGetMarketsArgs a = some i) :
    (buildMarketsRequest i).active = some true
    ∧ marketsQueryActive (buildMarketsRequest i) = some "true"
    ∧ (∀ b, parseGetMarketsArgs ⟨a.exchange, a.quote, a.limit, b⟩ = some i)
    ∧ "active" ∉ getMarketsSchemaProperties := by
  refine ⟨rfl, rfl, fun b => ?_, by decide⟩
  cases a
  exact h

/-- C9, witness: the concrete input `binance`, quote `USDT`, limit 50. -/
theorem c9_markets_active_fixed_true_witness :
    (buildMarketsRequest ⟨"binance", some "USDT", 50⟩).active = some true
    ∧ marketsQueryActive (buildMarketsRequest ⟨"binance", some "USDT", 50⟩) = some "true"
    ∧ (∀ b, parseGetMarketsArgs ⟨some "binance", some "USDT", some 50, b⟩
        = some ⟨"binance", some "USDT", 50⟩)
    ∧ "active" ∉ getMarketsSchemaProperties :=
  c9_markets_active_fixed_true ⟨some "binance", some "USDT", some 50, none⟩
    ⟨"binance", some "USDT", 50⟩ (by decide)

/-- Generic form of `candles.reduce((best, c) => better(key c, key best) ? c : best, first)`
from the analysis prompts: keep the accumulator unless the candidate's key is
strictly "better". -/
def selectBy (better : ℚ → ℚ → Prop) [DecidableRel better] (key : OhlcvCandle → ℚ)
    (first : OhlcvCandle) (rest : List OhlcvCandle) : OhlcvCandle :=
  rest.foldl (fun acc c => if better (key c) (key acc) then c else acc) first

/-- Characterization of `selectBy` for a strict comparison: the selected
element splits the list into a strictly-worse prefix and a not-better suffix,
i.e. it is the first occurrence of the optimum. -/
theorem selectBy_spec (better : ℚ → ℚ → Prop) [DecidableRel better]
    (key : OhlcvCandle → ℚ)
    (htrans : ∀ a b c, better a b → better b c → better a c)
    (hcut : ∀ a b c, better a b → ¬better c b → better a c)
    (first : OhlcvCandle) (rest : List OhlcvCandle) :
    ∃ pre post, first :: rest = pre ++ selectBy better key first rest :: post
      ∧ (∀ d ∈ pre, better (key (selectBy better key first rest)) (key d))
      ∧ (∀ d ∈ post, ¬better (key d) (key (selectBy better key first rest))) := by
  induction rest using List.reverseRecOn with
  | nil => exact ⟨[], [], rfl, by simp, by simp⟩
  | append_singleton l c ih =>
    obtain ⟨pre, post, heq, hpre, hpost⟩ := ih
    have hsel : selectBy better key first (l ++ [c])
        = if better (key c) (key (selectBy better key first l)) then c
          else selectBy better key first l := by
      simp [selectBy, List.foldl_append]
    by_cases hb : better (key c) (key (selectBy better key first l))
    · refine ⟨first :: l, [], ?_, ?_, by simp⟩
      · rw [hsel, if_pos hb]
        simp
      · intro d hd
        rw [hsel, if_pos hb]
        rw [heq] at hd
        rcases List.mem_append.mp hd with hd | hd
        · exact htrans _ _ _ hb (hpre d hd)
        · rcases List.mem_cons.mp hd with rfl | hd
          · exact hb
          · exact hcut _ _ _ hb (hpost d hd)
    · refine ⟨pre, post ++ [c], ?_, ?_, ?_⟩
      · rw [hsel, if_neg hb, show first :: (l ++ [c]) = (first :: l) ++ [c] by simp, heq]
        simp
      · intro d hd
        rw [hsel, if_neg hb]
        exact hpre d hd
      · intro d hd
        rw [hsel, if_neg hb]
        rcases List.mem_append.mp hd with hd | hd
        · exact hpost d hd
        · rw [List.mem_singleton.mp hd]
          exact hb

/-- Summary statistics computed by `buildOhlcvAnalysisPrompt` in
`prompts/analyze-ohlcv.ts`. -/
structure OhlcvStats where
  priceChange : ℚ
  priceChangePercent : ℚ
  highCandle : OhlcvCandle
  lowCandle : OhlcvCandle
  totalVolume : ℚ
  avgVolume : ℚ
  volumeSpikes : Nat
  bullish : Nat
  bearish : Nat
deriving Repr, DecidableEq

/-- The statistics block of `buildOhlcvAnalysisPrompt`, field for field:
`reduce` folds over the whole series seeded with `candles[0]`, volume spikes
compare strictly against twice the average, bullish means `close >= open` and
bearish `close < open`. The caller guarantees a non-empty series. -/
def ohlcvStats (candles : List OhlcvCandle) (h : candles ≠ []) : OhlcvStats :=
  let first := candles.head h
  let lastC := candles.getLast h
  let highCandle := candles.foldl (fun acc c => if acc.high < c.high then c else acc) first
  let lowCandle := candles.foldl (fun acc c => if c.low < acc.low then c else acc) first
  let totalVolume := candles.foldl (fun s c => s + c.volume) (0 : ℚ)
  let avgVolume := totalVolume / candles.length
  let priceChange := lastC.close - first.«open»
  let priceChangePercent := priceChange / first.«open» * 100
  let volumeSpikes := (candles.filter (fun c => decide (avgVolume * 2 < c.volume))).length
  let bullish := (candles.filter (fun c => decide (c.«open» ≤ c.close))).length
  let bearish := (candles.filter (fun c => decide (c.close < c.«open»))).length
  ⟨priceChange, priceChangePercent, highCandle, lowCandle, totalVolume, avgVolume,
    volumeSpikes, bullish, bearish⟩

/-- Folding `(s, c) => s + c.volume` accumulates the volume sum. -/
theorem foldl_add_volume (l : List OhlcvCandle) (init : ℚ) :
    l.foldl (fun s c => s + c.volume) init = init + (l.map OhlcvCandle.volume).sum := by
  induction l generalizing init with
  | nil => simp
  | cons c cs ih => simp [ih, add_assoc]

/-- The bullish (`close >= open`) and bearish (`close < open`) filters of
`buildOhlcvAnalysisPrompt` partition the series. -/
theorem bullish_bearish_partition (l : List OhlcvCandle) :
    (l.filter (fun c => decide (c.«open» ≤ c.close))).length
      + (l.filter (fun c => decide (c.close < c.«open»))).length = l.length := by
  have hneg : (fun c : OhlcvCandle => decide (c.close < c.«open»))
      = (fun c => decide ¬(decide (c.«open» ≤ c.close) = true)) := by
    funext c
    apply decide_eq_decide.mpr
    simp [not_le]
  rw [← List.countP_eq_length_filter, ← List.countP_eq_length_filter, hneg]
  exact (List.length_eq_countP_add_countP _ _).symm

/-- C6: over every non-empty candle series, `buildOhlcvAnalysisPrompt`
reports the overall percent change `(last.close - first.open)/first.open * 100`;
a max-high candle and a min-low candle that are the first occurrences of
their extremes (strictly-beaten prefix, not-better suffix); the total volume
and the average volume (total divided by candle count); the count of volume
spikes whose volume strictly exceeds twice the average; and bullish
(`close >= open`) and bearish (`close < open`) counts summing to the series
length. -/
theorem c6_analyze_ohlcv_stats (candles : List OhlcvCandle) (h : candles ≠ []) :
    (ohlcvStats candles h).priceChange
        = (candles.getLast h).close - (candles.head h).«open»
    ∧ (ohlcvStats candles h).priceChangePercent
        = ((candles.getLast h).close - (candles.head h).«open»)
            / (candles.head h).«open» * 100
    ∧ (∃ pre post, candles = pre ++ (ohlcvStats candles h).highCandle :: post
        ∧ (∀ d ∈ pre, d.high < (ohlcvStats candles h).highCandle.high)
        ∧ (∀ d ∈ post, d.high ≤ (ohlcvStats candles h).highCandle.high))
    ∧ (∃ pre post, candles = pre ++ (ohlcvStats candles h).lowCandle :: post
        ∧ (∀ d ∈ pre, (ohlcvStats candles h).lowCandle.low < d.low)
        ∧ (∀ d ∈ post, (ohlcvStats candles h).lowCandle.low ≤ d.low))
    ∧ (ohlcvStats candles h).totalVolume = (candles.map OhlcvCandle.volume).sum
    ∧ (ohlcvStats candles h).avgVolume
        = (ohlcvStats candles h).totalVolume / candles.length
    ∧ (ohlcvStats candles h).volumeSpikes
        = candles.countP (fun c => decide ((ohlcvStats candles h).avgVolume * 2 < c.volume))
    ∧ (ohlcvStats candles h).bullish
        = candles.countP (fun c => decide (c.«open» ≤ c.close))
    ∧ (ohlcvStats candles h).bearish
        = candles.countP (fun c => decide (c.close < c.«open»))
    ∧ (ohlcvStats candles h).bullish + (ohlcvStats candles h).bearish
        = candles.length := by
  obtain ⟨first, rest, rfl⟩ := List.exists_cons_of_ne_nil h
  have hH : (ohlcvStats (first :: rest) h).highCandle
      = selectBy (fun a b => b < a) OhlcvCandle.high first rest := by
    simp [ohlcvStats, selectBy, List.foldl_cons, ite_self]
  have hL : (ohlcvStats (first :: rest) h).lowCandle
      = selectBy (fun a b => a < b) OhlcvCandle.low first rest := by
    simp [ohlcvStats, selectBy, List.foldl_cons, ite_self]
  refine ⟨rfl, rfl, ?_, ?_, ?_, rfl, ?_, ?_, ?_, ?_⟩
  · obtain ⟨pre, post, heq, hpre, hpost⟩ :=
      selectBy_spec (fun a b => b < a) OhlcvCandle.high
        (fun _ _ _ hab hbc => lt_trans hbc hab)
        (fun _ _ _ h1 h2 => lt_of_le_of_lt (not_lt.mp h2) h1) first rest
    rw [hH]
    exact ⟨pre, post, heq, hpre, fun d hd => not_lt.mp (hpost d hd)⟩
  · obtain ⟨pre, post, heq, hpre, hpost⟩ :=
      selectBy_spec (fun a b => a < b) OhlcvCandle.low
        (fun _ _ _ hab hbc => lt_trans hab hbc)
        (fun _ _ _ h1 h2 => lt_of_lt_of_le h1 (not_lt.mp h2)) first rest
    rw [hL]
    exact ⟨pre, post, heq, hpre, fun d hd => not_lt.mp (hpost d hd)⟩
  · show (first :: rest).foldl (fun s c => s + c.volume) 0 = _
    rw [foldl_add_volume]
    ring
  · exact (List.countP_eq_length_filter _ _).symm
  · exact (List.countP_eq_length_filter _ _).symm
  · exact (List.countP_eq_length_filter _ _).symm
  · exact bullish_bearish_partition (first :: rest)

/-- The spec's worked 3-candle series: opens/closes (10,12), (12,11), (11,15)
and volumes 100, 100, 500. -/
def exampleCandles : List OhlcvCandle :=
  [⟨0, 10, 12, 10, 12, 100, none, none⟩,
   ⟨1, 12, 12, 11, 11, 100, none, none⟩,
   ⟨2, 11, 15, 11, 15, 500, none, none⟩]

/-- The example series is non-empty. -/
theorem exampleCandles_ne_nil : exampleCandles ≠ [] := by decide

/-- C6, witness: the statistics properties at the spec's worked 3-candle
series. -/
theorem c6_analyze_ohlcv_stats_witness :
    (ohlcvStats exampleCandles exampleCandles_ne_nil).priceChange
        = (exampleCandles.getLast exampleCandles_ne_nil).close
            - (exampleCandles.head exampleCandles_ne_nil).«open»
    ∧ (ohlcvStats exampleCandles exampleCandles_ne_nil).priceChangePercent
        = ((exampleCandles.getLast exampleCandles_ne_nil).close
              - (exampleCandles.head exampleCandles_ne_nil).«open»)
            / (exampleCandles.head exampleCandles_ne_nil).«open» * 100
    ∧ (∃ pre post, exampleCandles
          = pre ++ (ohlcvStats exampleCandles exampleCandles_ne_nil).highCandle :: post
        ∧ (∀ d ∈ pre,
            d.high < (ohlcvStats exampleCandles exampleCandles_ne_nil).highCandle.high)
        ∧ (∀ d ∈ post,
            d.high ≤ (ohlcvStats exampleCandles exampleCandles_ne_nil).highCandle.high))
    ∧ (∃ pre post, exampleCandles
          = pre ++ (ohlcvStats exampleCandles exampleCandles_ne_nil).lowCandle :: post
        ∧ (∀ d ∈ pre,
            (ohlcvStats exampleCandles exampleCandles_ne_nil).lowCandle.low < d.low)
        ∧ (∀ d ∈ post,
            (ohlcvStats exampleCandles exampleCandles_ne_nil).lowCandle.low ≤ d.low))
    ∧ (ohlcvStats exampleCandles exampleCandles_ne_nil).totalVolume
        = (exampleCandles.map OhlcvCandle.volume).sum
    ∧ (ohlcvStats exampleCandles exampleCandles_ne_nil).avgVolume
        = (ohlcvStats exampleCandles exampleCandles_ne_nil).totalVolume
            / exampleCandles.length
    ∧ (ohlcvStats exampleCandles exampleCandles_ne_nil).volumeSpikes
        = exampleCandles.countP (fun c =>
            decide ((ohlcvStats exampleCandles exampleCandles_ne_nil).avgVolume * 2
              < c.volume))
    ∧ (ohlcvStats exampleCandles exampleCandles_ne_nil).bullish
        = exampleCandles.countP (fun c => decide (c.«open» ≤ c.close))
    ∧ (ohlcvStats exampleCandles exampleCandles_ne_nil).bearish
        = exampleCandles.countP (fun c => decide (c.close < c.«open»))
    ∧ (ohlcvStats exampleCandles exampleCandles_ne_nil).bullish
        + (ohlcvStats exampleCandles exampleCandles_ne_nil).bearish
        = exampleCandles.length :=
  c6_analyze_ohlcv_stats exampleCandles exampleCandles_ne_nil

/-- Per-exchange row assembled by `generateCompareExchangesPrompt` in
`prompts/compare-exchanges.ts`: the picked ticker fields plus the
`available` flag (`ticker !== null`). -/
structure TickerEntry where
  exchange : String
  last : Option ℚ
  bid : Option ℚ
  ask : Option ℚ
  volume : Option ℚ
  changePercent : Option ℚ
  available : Bool
deriving Repr, DecidableEq

/-- The spread-computation filter of `buildComparisonPrompt`:
`t.available && t.last !== null`. -/
def usableTicker (t : TickerEntry) : Bool := t.available && t.last.isSome

/-- Projection to `(exchange, price)` used for the spread computation
(`t.last as number` is justified by the filter; `getD 0` is never the
fallback on filtered entries). -/
def entryPrice (t : TickerEntry) : String × ℚ := (t.exchange, t.last.getD 0)

/-- `Math.min(...values)`: `none` models the `Infinity` produced on an empty
argument list, which no claim-relevant path observes. -/
def foldMin : List ℚ → Option ℚ
  | [] => none
  | x :: xs => some (xs.foldl min x)

/-- `Math.max(...values)`: `none` models `-Infinity` on an empty list. -/
def foldMax : List ℚ → Option ℚ
  | [] => none
  | x :: xs => some (xs.foldl max x)

/-- `prices.find((p) => p.price === target)?.exchange ?? 'unknown'`. On an
empty price list the find misses and the fallback `'unknown'` is produced,
exactly as in the source. -/
def firstExchangeAt (prices : List (String × ℚ)) : Option ℚ → String
  | none => "unknown"
  | some m => ((prices.find? (fun p => p.2 == m)).map Prod.fst).getD "unknown"

/-- Status cell of a comparison-table row: `ticker.available ? '✅' : '❌'`. -/
def statusMarker (t : TickerEntry) : String := if t.available then "✅" else "❌"

/-- Output of `buildComparisonPrompt`: the spread figures and, per input
row, the exchange with its status marker (the remaining cells are
locale-formatted numbers, presentation detail per spec section 1). `none`
in the figures models the junk values (`Infinity`/`NaN`) the source computes
from an empty price list. -/
structure SpreadAnalysis where
  prices : List (String × ℚ)
  minPrice : Option ℚ
  maxPrice : Option ℚ
  priceDiff : Option ℚ
  priceDiffPercent : Option ℚ
  minExchange : String
  maxExchange : String
  rows : List (String × String)
deriving Repr, DecidableEq

/-- The spread computation of `buildComparisonPrompt` in
`prompts/compare-exchanges.ts`. -/
def buildComparisonPrompt (tickers : List TickerEntry) : SpreadAnalysis :=
  let availables := tickers.filter usableTicker
  let prices := availables.map entryPrice
  let minPrice := foldMin (prices.map Prod.snd)
  let maxPrice := foldMax (prices.map Prod.snd)
  let priceDiff := match minPrice, maxPrice with
    | some a, some b => some (b - a)
    | _, _ => none
  let priceDiffPercent := match minPrice, maxPrice with
    | some a, some b => some ((b - a) / a * 100)
    | _, _ => none
  ⟨prices, minPrice, maxPrice, priceDiff, priceDiffPercent,
    firstExchangeAt prices minPrice, firstExchangeAt prices maxPrice,
    tickers.map (fun t => (t.exchange, statusMarker t))⟩

/-- C7 counterexample: an exchange whose ticker was returned but carries a
null last price has no usable price and is excluded from the spread
computation, yet its table row is marked available (✅), not unavailable
(❌) as the claim states — the marker tracks `ticker !== null`, not price
usability. -/
theorem c7_null_last_marked_available_counterexample :
    usableTicker ⟨"kraken", none, none, none, none, none, true⟩ = false
    ∧ (buildComparisonPrompt
        [⟨"binance", some 100, none, none, none, none, true⟩,
         ⟨"kraken", none, none, none, none, none, true⟩]).prices
        = [("binance", 100)]
    ∧ statusMarker ⟨"kraken", none, none, none, none, none, true⟩ = "✅"
    ∧ ("✅" : String) ≠ "❌" := by
  refine ⟨rfl, by decide, rfl, by decide⟩

/-- A `min`-fold lands on a member of the seed-plus-list. -/
theorem foldl_min_mem (xs : List ℚ) (x : ℚ) : xs.foldl min x ∈ x :: xs := by
  induction xs generalizing x with
  | nil => simp
  | cons y ys ih =>
    rw [List.foldl_cons]
    rcases List.mem_cons.mp (ih (min x y)) with h | h
    · rw [h]
      rcases min_choice x y with hm | hm <;> rw [hm] <;> simp
    · exact List.mem_cons_of_mem _ (List.mem_cons_of_mem _ h)

/-- A `min`-fold is a lower bound of the seed-plus-list. -/
theorem foldl_min_le (xs : List ℚ) (x : ℚ) : ∀ y ∈ x :: xs, xs.foldl min x ≤ y := by
  induction xs generalizing x with
  | nil =>
    intro y hy
    rw [List.mem_singleton.mp hy]
    simp
  | cons z zs ih =>
    intro y hy
    rw [List.foldl_cons]
    rcases List.mem_cons.mp hy with rfl | hy2
    · exact le_trans (ih (min y z) _ (List.mem_cons_self _ _)) (min_le_left _ _)
    · rcases List.mem_cons.mp hy2 with rfl | hy3
      · exact le_trans (ih (min x y) _ (List.mem_cons_self _ _)) (min_le_right _ _)
      · exact ih (min x z) y (List.mem_cons_of_mem _ hy3)

/-- A `max`-fold lands on a member of the seed-plus-list. -/
theorem foldl_max_mem (xs : List ℚ) (x : ℚ) : xs.foldl max x ∈ x :: xs := by
  induction xs generalizing x with
  | nil => simp
  | cons y ys ih =>
    rw [List.foldl_cons]
    rcases List.mem_cons.mp (ih (max x y)) with h | h
    · rw [h]
      rcases max_choice x y with hm | hm <;> rw [hm] <;> simp
    · exact List.mem_cons_of_mem _ (List.mem_cons_of_mem _ h)

/-- A `max`-fold is an upper bound of the seed-plus-list. -/
theorem foldl_max_ge (xs : List ℚ) (x : ℚ) : ∀ y ∈ x :: xs, y ≤ xs.foldl max x := by
  induction xs generalizing x with
  | nil =>
    intro y hy
    rw [List.mem_singleton.mp hy]
    simp
  | cons z zs ih =>
    intro y hy
    rw [List.foldl_cons]
    rcases List.mem_cons.mp hy with rfl | hy2
    · exact le_trans (le_max_left _ _) (ih (max y z) _ (List.mem_cons_self _ _))
    · rcases List.mem_cons.mp hy2 with rfl | hy3
      · exact le_trans (le_max_right _ _) (ih (max x y) _ (List.mem_cons_self _ _))
      · exact ih (max x z) y (List.mem_cons_of_mem _ hy3)

/-- A successful `find?` splits the list at the first hit: everything before
it fails the predicate. -/
theorem find?_split {α : Type} (p : α → Bool) (l : List α) (r : α)
    (h : l.find? p = some r) :
    p r = true ∧ ∃ pre post, l = pre ++ r :: post ∧ ∀ q ∈ pre, p q = false := by
  induction l with
  | nil => simp at h
  | cons a as ih =>
    by_cases hpa : p a = true
    · rw [List.find?_cons_of_pos _ hpa] at h
      obtain rfl : a = r := by injection h
      exact ⟨hpa, [], as, rfl, by simp⟩
    · have hpa' : p a = false := by simpa using hpa
      rw [List.find?_cons_of_neg _ hpa] at h
      obtain ⟨hp, pre, post, heq, hpre⟩ := ih h
      refine ⟨hp, a :: pre, post, by simp [heq], ?_⟩
      intro q hq
      rcases List.mem_cons.mp hq with rfl | hq2
      · exact hpa'
      · exact hpre q hq2

/-- C7 amended: `buildComparisonPrompt` computes the spread only over the
entries whose ticker was returned with a non-null last price: whenever that
set is non-empty it reports its minimum and maximum last price, the absolute
spread `max - min`, the percentage spread `(max - min)/min * 100`, and for
each extreme the first price-list entry attaining it; exchanges whose ticker
was NOT returned are the ones marked unavailable (❌) in the table — a
returned ticker with a null last price keeps the ✅ marker (see the
counterexample) but is still excluded from the computation. -/
theorem c7_compare_spread_amended (tickers : List TickerEntry)
    (h : (buildComparisonPrompt tickers).prices ≠ []) :
    (buildComparisonPrompt tickers).prices
        = (tickers.filter usableTicker).map entryPrice
    ∧ (∀ t ∈ tickers, t.available = false →
        (t.exchange, "❌") ∈ (buildComparisonPrompt tickers).rows)
    ∧ ∃ m M, (buildComparisonPrompt tickers).minPrice = some m
        ∧ (buildComparisonPrompt tickers).maxPrice = some M
        ∧ (∀ p ∈ (buildComparisonPrompt tickers).prices, m ≤ p.2 ∧ p.2 ≤ M)
        ∧ (buildComparisonPrompt tickers).priceDiff = some (M - m)
        ∧ (buildComparisonPrompt tickers).priceDiffPercent = some ((M - m) / m * 100)
        ∧ (∃ pre post, (buildComparisonPrompt tickers).prices
              = pre ++ ((buildComparisonPrompt tickers).minExchange, m) :: post
            ∧ ∀ q ∈ pre, q.2 ≠ m)
        ∧ (∃ pre post, (buildComparisonPrompt tickers).prices
              = pre ++ ((buildComparisonPrompt tickers).maxExchange, M) :: post
            ∧ ∀ q ∈ pre, q.2 ≠ M) := by
  obtain ⟨p0, rest, hcons⟩ :
      ∃ p0 rest, (tickers.filter usableTicker).map entryPrice = p0 :: rest :=
    List.exists_cons_of_ne_nil h
  have hm : foldMin (((tickers.filter usableTicker).map entryPrice).map Prod.snd)
      = some ((rest.map Prod.snd).foldl min p0.2) := by
    rw [hcons]
    rfl
  have hM : foldMax (((tickers.filter usableTicker).map entryPrice).map Prod.snd)
      = some ((rest.map Prod.snd).foldl max p0.2) := by
    rw [hcons]
    rfl
  have hmemvals : ∀ p ∈ (tickers.filter usableTicker).map entryPrice,
      p.2 ∈ p0.2 :: rest.map Prod.snd := by
    intro p hp
    have h1 : p.2 ∈ ((tickers.filter usableTicker).map entryPrice).map Prod.snd :=
      List.mem_map_of_mem _ hp
    rw [hcons] at h1
    simpa using h1
  have hbound : ∀ p ∈ (tickers.filter usableTicker).map entryPrice,
      (rest.map Prod.snd).foldl min p0.2 ≤ p.2
        ∧ p.2 ≤ (rest.map Prod.snd).foldl max p0.2 := fun p hp =>
    ⟨foldl_min_le _ _ _ (hmemvals p hp), foldl_max_ge _ _ _ (hmemvals p hp)⟩
  have hmmem : (rest.map Prod.snd).foldl min p0.2
      ∈ ((tickers.filter usableTicker).map entryPrice).map Prod.snd := by
    rw [hcons]
    simpa using foldl_min_mem (rest.map Prod.snd) p0.2
  have hMmem : (rest.map Prod.snd).foldl max p0.2
      ∈ ((tickers.filter usableTicker).map entryPrice).map Prod.snd := by
    rw [hcons]
    simpa using foldl_max_mem (rest.map Prod.snd) p0.2
  obtain ⟨qm, hqm_mem, hqm_eq⟩ := List.mem_map.mp hmmem
  obtain ⟨qM, hqM_mem, hqM_eq⟩ := List.mem_map.mp hMmem
  obtain ⟨rm, hrm⟩ :
      ∃ rm, ((tickers.filter usableTicker).map entryPrice).find?
        (fun p => p.2 == (rest.map Prod.snd).foldl min p0.2) = some rm :=
    Option.isSome_iff_exists.mp
      (List.find?_isSome.mpr ⟨qm, hqm_mem, by simp [hqm_eq]⟩)
  obtain ⟨rM, hrM⟩ :
      ∃ rM, ((tickers.filter usableTicker).map entryPrice).find?
        (fun p => p.2 == (rest.map Prod.snd).foldl max p0.2) = some rM :=
    Option.isSome_iff_exists.mp
      (List.find?_isSome.mpr ⟨qM, hqM_mem, by simp [hqM_eq]⟩)
  obtain ⟨hprm, prem, postm, hsplitm, hprem⟩ := find?_split _ _ _ hrm
  obtain ⟨hprM, preM, postM, hsplitM, hpreM⟩ := find?_split _ _ _ hrM
  have hrm2 : rm.2 = (rest.map Prod.snd).foldl min p0.2 := by simpa using hprm
  have hrM2 : rM.2 = (rest.map Prod.snd).foldl max p0.2 := by simpa using hprM
  have hminex : (buildComparisonPrompt tickers).minExchange = rm.1 := by
    show firstExchangeAt ((tickers.filter usableTicker).map entryPrice)
        (foldMin (((tickers.filter usableTicker).map entryPrice).map Prod.snd)) = rm.1
    rw [hm]
    show ((((tickers.filter usableTicker).map entryPrice).find?
        (fun p => p.2 == (rest.map Prod.snd).foldl min p0.2)).map Prod.fst).getD "unknown"
        = rm.1
    rw [hrm]
    rfl
  have hmaxex : (buildComparisonPrompt tickers).maxExchange = rM.1 := by
    show firstExchangeAt ((tickers.filter usableTicker).map entryPrice)
        (foldMax (((tickers.filter usableTicker).map entryPrice).map Prod.snd)) = rM.1
    rw [hM]
    show ((((tickers.filter usableTicker).map entryPrice).find?
        (fun p => p.2 == (rest.map Prod.snd).foldl max p0.2)).map Prod.fst).getD "unknown"
        = rM.1
    rw [hrM]
    rfl
  refine ⟨rfl, ?_, (rest.map Prod.snd).foldl min p0.2, (rest.map Prod.snd).foldl max p0.2,
    hm, hM, hbound, ?_, ?_, ?_, ?_⟩
  · intro t ht hav
    show (t.exchange, "❌") ∈ tickers.map (fun t => (t.exchange, statusMarker t))
    exact List.mem_map.mpr ⟨t, ht, by simp [statusMarker, hav]⟩
  · show (match foldMin (((tickers.filter usableTicker).map entryPrice).map Prod.snd),
        foldMax (((tickers.filter usableTicker).map entryPrice).map Prod.snd) with
      | some a, some b => some (b - a)
      | _, _ => none) = _
    rw [hm, hM]
  · show (match foldMin (((tickers.filter usableTicker).map entryPrice).map Prod.snd),
        foldMax (((tickers.filter usableTicker).map entryPrice).map Prod.snd) with
      | some a, some b => some ((b - a) / a * 100)
      | _, _ => none) = _
    rw [hm, hM]
  · refine ⟨prem, postm, ?_, ?_⟩
    · show (tickers.filter usableTicker).map entryPrice
          = prem ++ ((buildComparisonPrompt tickers).minExchange,
              (rest.map Prod.snd).foldl min p0.2) :: postm
      rw [hminex, ← hrm2, Prod.mk.eta]
      exact hsplitm
    · intro q hq
      simpa using hprem q hq
  · refine ⟨preM, postM, ?_, ?_⟩
    · show (tickers.filter usableTicker).map entryPrice
          = preM ++ ((buildComparisonPrompt tickers).maxExchange,
              (rest.map Prod.snd).foldl max p0.2) :: postM
      rw [hmaxex, ← hrM2, Prod.mk.eta]
      exact hsplitM
    · intro q hq
      simpa using hpreM q hq

/-- The spec's comparison scenario: binance at 100, coinbase at 105, kraken
unavailable. -/
def exampleCompareTickers : List TickerEntry :=
  [⟨"binance", some 100, none, none, none, none, true⟩,
   ⟨"coinbase", some 105, none, none, none, none, true⟩,
   ⟨"kraken", none, none, none, none, none, false⟩]

/-- C7 amended, witness: the spread properties at the spec's scenario. -/
theorem c7_compare_spread_amended_witness :
    (buildComparisonPrompt exampleCompareTickers).prices
        = (exampleCompareTickers.filter usableTicker).map entryPrice
    ∧ (∀ t ∈ exampleCompareTickers, t.available = false →
        (t.exchange, "❌") ∈ (buildComparisonPrompt exampleCompareTickers).rows)
    ∧ ∃ m M, (buildComparisonPrompt exampleCompareTickers).minPrice = some m
        ∧ (buildComparisonPrompt exampleCompareTickers).maxPrice = some M
        ∧ (∀ p ∈ (buildComparisonPrompt exampleCompareTickers).prices, m ≤ p.2 ∧ p.2 ≤ M)
        ∧ (buildComparisonPrompt exampleCompareTickers).priceDiff = some (M - m)
        ∧ (buildComparisonPrompt exampleCompareTickers).priceDiffPercent
            = some ((M - m) / m * 100)
        ∧ (∃ pre post, (buildComparisonPrompt exampleCompareTickers).prices
              = pre ++ ((buildComparisonPrompt exampleCompareTickers).minExchange, m) :: post
            ∧ ∀ q ∈ pre, q.2 ≠ m)
        ∧ (∃ pre post, (buildComparisonPrompt exampleCompareTickers).prices
              = pre ++ ((buildComparisonPrompt exampleCompareTickers).maxExchange, M) :: post
            ∧ ∀ q ∈ pre, q.2 ≠ M) :=
  c7_compare_spread_amended exampleCompareTickers (by decide)

/-- The default exchange list of `generateCompareExchangesPrompt`. -/
def defaultExchanges : List String := ["binance", "coinbase", "kraken"]

/-- Exchange-list derivation of `generateCompareExchangesPrompt`:
`exchangesStr ? exchangesStr.split(',').map(e => e.trim().toLowerCase())
: DEFAULT_EXCHANGES`. The guard is JavaScript truthiness, so both an absent
and an EMPTY exchanges string fall back to the default three-exchange list. -/
def compareExchangeList : Option String → List String
  | some s =>
    if s = "" then defaultExchanges
    else (s.splitOn ",").map (fun e => e.trim.toLower)
  | none => defaultExchanges

/-- Row construction of `generateCompareExchangesPrompt`: optional chaining
with null fallback on each ticker field and `available = ticker !== null`. -/
def mkTickerEntry (ex : String) (t : Option Ticker) : TickerEntry :=
  ⟨ex, t.bind Ticker.last, t.bind Ticker.bid, t.bind Ticker.ask,
    t.bind Ticker.volume, t.bind Ticker.changePercent, t.isSome⟩

/-- JavaScript `Array.join(', ')`. -/
def joinComma : List String → String
  | [] => ""
  | [x] => x
  | x :: y :: ys => x ++ ", " ++ joinComma (y :: ys)

/-- Outcome of the `compare_exchanges` generator: zod failure, the
explanatory all-unavailable message, or the spread-analysis prompt. -/
inductive ComparePromptOutcome where
  | invalid
  | unableToFetch (text : String)
  | analysis (symbol : String) (sa : SpreadAnalysis)
deriving Repr, DecidableEq

/-- The `generateCompareExchangesPrompt` handler of
`prompts/compare-exchanges.ts`: validate, fetch one ticker per listed
exchange (in order), emit the explanatory message when NO exchange returned a
ticker, and otherwise build the comparison prompt over all rows. -/
def generateCompareExchangesPrompt (fetch : String → String → Option Ticker)
    (symbol : Option String) (exchangesStr : Option String) : ComparePromptOutcome :=
  match symbol with
  | none => .invalid
  | some sym =>
    if 1 ≤ sym.length then
      let exchangeList := compareExchangeList exchangesStr
      let tickerResults := exchangeList.map (fun ex => mkTickerEntry ex (fetch ex sym.toUpper))
      if tickerResults.filter (fun t => t.available) = [] then
        .unableToFetch ("Unable to fetch " ++ sym
          ++ " data from any of the specified exchanges (" ++ joinComma exchangeList
          ++ "). Please verify the symbol is available on these exchanges.")
      else
        .analysis sym (buildComparisonPrompt tickerResults)
    else .invalid

/-- C10: the generator returns the "Unable to fetch" explanatory message
exactly when `getTicker` returned null for every listed exchange; when at
least one exchange returns a ticker but every returned ticker has a null
last price, it still emits the spread-analysis prompt — computed over an
empty price set, with both extremes' exchange rendered as `unknown` —
instead of the explanatory message. -/
theorem c10_compare_fallback (fetch : String → String → Option Ticker)
    (sym : String) (exchangesStr : Option String) (hsym : 1 ≤ sym.length) :
    ((∃ t, generateCompareExchangesPrompt fetch (some sym) exchangesStr
        = .unableToFetch t)
      ↔ ∀ ex ∈ compareExchangeList exchangesStr, fetch ex sym.toUpper = none)
    ∧ ((∃ ex ∈ compareExchangeList exchangesStr, (fetch ex sym.toUpper).isSome)
        → (∀ ex, ex ∈ compareExchangeList exchangesStr →
            ∀ t, fetch ex sym.toUpper = some t → t.last = none)
        → ∃ sa, generateCompareExchangesPrompt fetch (some sym) exchangesStr
              = .analysis sym sa
            ∧ sa.prices = []
            ∧ sa.minExchange = "unknown"
            ∧ sa.maxExchange = "unknown") := by
  have hiff : (((compareExchangeList exchangesStr).map
        (fun ex => mkTickerEntry ex (fetch ex sym.toUpper))).filter
          (fun t => t.available) = [])
      ↔ ∀ ex ∈ compareExchangeList exchangesStr, fetch ex sym.toUpper = none := by
    rw [List.filter_eq_nil_iff]
    constructor
    · intro hall ex hex
      have hthis := hall (mkTickerEntry ex (fetch ex sym.toUpper))
        (List.mem_map_of_mem _ hex)
      have hns : ¬((fetch ex sym.toUpper).isSome = true) := by
        simpa [mkTickerEntry] using hthis
      exact Option.not_isSome_iff_eq_none.mp hns
    · intro hnone a ha
      obtain ⟨ex, hex, rfl⟩ := List.mem_map.mp ha
      simp [mkTickerEntry, hnone ex hex]
  constructor
  · have hx : (∃ t, generateCompareExchangesPrompt fetch (some sym) exchangesStr
        = .unableToFetch t)
        ↔ (((compareExchangeList exchangesStr).map
            (fun ex => mkTickerEntry ex (fetch ex sym.toUpper))).filter
              (fun t => t.available) = []) := by
      by_cases hc : ((compareExchangeList exchangesStr).map
          (fun ex => mkTickerEntry ex (fetch ex sym.toUpper))).filter
            (fun t => t.available) = []
      · simp [generateCompareExchangesPrompt, hsym, hc]
      · simp [generateCompareExchangesPrompt, hsym, hc]
    rw [hx, hiff]
  · rintro ⟨ex0, hex0, hsome0⟩ hlastnone
    have hc : ¬(((compareExchangeList exchangesStr).map
        (fun ex => mkTickerEntry ex (fetch ex sym.toUpper))).filter
          (fun t => t.available) = []) := by
      intro hcontra
      rw [hiff.mp hcontra ex0 hex0] at hsome0
      simp at hsome0
    have husable : ((compareExchangeList exchangesStr).map
        (fun ex => mkTickerEntry ex (fetch ex sym.toUpper))).filter usableTicker = [] := by
      rw [List.filter_eq_nil_iff]
      intro a ha
      obtain ⟨ex, hex, rfl⟩ := List.mem_map.mp ha
      cases hfe : fetch ex sym.toUpper with
      | none => simp [mkTickerEntry, usableTicker, hfe]
      | some t =>
        have hl : t.last = none := hlastnone ex hex t hfe
        simp [mkTickerEntry, usableTicker, hfe, hl]
    have hunk : ∀ res : List TickerEntry, res.filter usableTicker = [] →
        (buildComparisonPrompt res).prices = []
        ∧ (buildComparisonPrompt res).minExchange = "unknown"
        ∧ (buildComparisonPrompt res).maxExchange = "unknown" := by
      intro res hres
      refine ⟨?_, ?_, ?_⟩ <;>
        simp [buildComparisonPrompt, hres, foldMin, foldMax, firstExchangeAt]
    obtain ⟨hu1, hu2, hu3⟩ := hunk _ husable
    refine ⟨buildComparisonPrompt ((compareExchangeList exchangesStr).map
        (fun ex => mkTickerEntry ex (fetch ex sym.toUpper))), ?_, hu1, hu2, hu3⟩
    simp [generateCompareExchangesPrompt, hsym, hc]

/-- A ticker whose numeric fields, the last price included, are all null. -/
def nullLastTicker : Ticker :=
  ⟨"BTC/USDT", "binance", none, none, none, none, none, none, none, none, none, none,
    "2024-01-01T00:00:00Z"⟩

/-- An upstream where only binance returns a ticker, and that ticker has a
null last price. -/
def fetchNullLast : String → String → Option Ticker :=
  fun ex _ => if ex = "binance" then some nullLastTicker else none

/-- C10, witness: the default exchange list against the null-last upstream. -/
theorem c10_compare_fallback_witness :
    ((∃ t, generateCompareExchangesPrompt fetchNullLast (some "BTC/USDT") none
        = .unableToFetch t)
      ↔ ∀ ex ∈ compareExchangeList none, fetchNullLast ex "BTC/USDT".toUpper = none)
    ∧ ((∃ ex ∈ compareExchangeList none, (fetchNullLast ex "BTC/USDT".toUpper).isSome)
        → (∀ ex, ex ∈ compareExchangeList none →
            ∀ t, fetchNullLast ex "BTC/USDT".toUpper = some t → t.last = none)
        → ∃ sa, generateCompareExchangesPrompt fetchNullLast (some "BTC/USDT") none
              = .analysis "BTC/USDT" sa
            ∧ sa.prices = []
            ∧ sa.minExchange = "unknown"
            ∧ sa.maxExchange = "unknown") :=
  c10_compare_fallback fetchNullLast "BTC/USDT" none (by decide)

/-- State of the HTTP transport bootstrap in `index.ts`: the session map
(session id to transport id, most recent first) plus allocation counters.
`crypto.randomUUID()` and `new WebStandardStreamableHTTPServerTransport`
are modelled as fresh allocations from never-repeating counters; a fresh
protocol-server instance is bound to each new transport
(`createMCPServer()` per cache miss), so server freshness coincides with
transport freshness. -/
structure SessionState where
  sessions : List (Nat × Nat)
  nextSid : Nat
  nextTid : Nat
deriving Repr, DecidableEq

/-- The empty session map at server start. -/
def initialSessionState : SessionState := ⟨[], 0, 0⟩

/-- Events hitting the `/mcp` route: a request carrying an optional
`mcp-session-id` header, or the transport's `onsessionclosed` callback. -/
inductive SessionEvent where
  | request (sid : Option Nat)
  | close (sid : Nat)
deriving Repr, DecidableEq

/-- `sessions.get(sessionId)`. -/
def lookupSession (sessions : List (Nat × Nat)) (sid : Nat) : Option Nat :=
  (sessions.find? (fun p => p.1 == sid)).map Prod.snd

/-- Cache miss in the `/mcp` handler: create a fresh transport, connect a
fresh server, and (when the library initializes the session) insert the
freshly generated session id into the map. Returns the created transport. -/
def openSession (s : SessionState) : SessionState × Nat :=
  (⟨(s.nextSid, s.nextTid) :: s.sessions, s.nextSid + 1, s.nextTid + 1⟩, s.nextTid)

/-- One step of the `/mcp` route and session callbacks: a request with a
known session id reuses its transport; a request with an unknown or missing
id opens a new session; `onsessionclosed` deletes exactly its entry. The
second component is the transport that served a request. -/
def sessionStep (s : SessionState) : SessionEvent → SessionState × Option Nat
  | .request (some sid) =>
    match lookupSession s.sessions sid with
    | some t => (s, some t)
    | none => ((openSession s).1, some (openSession s).2)
  | .request none => ((openSession s).1, some (openSession s).2)
  | .close sid => (⟨s.sessions.filter (fun p => p.1 != sid), s.nextSid, s.nextTid⟩, none)

/-- Run a sequence of events from a state. -/
def runSession (s : SessionState) : List SessionEvent → SessionState
  | [] => s
  | e :: es => runSession (sessionStep s e).1 es

/-- Well-formedness of the session state: every registered id and transport
is below its counter, and entries are pairwise distinct in both components. -/
def SessionWF (s : SessionState) : Prop :=
  (∀ p ∈ s.sessions, p.1 < s.nextSid ∧ p.2 < s.nextTid)
  ∧ s.sessions.Pairwise (fun p q => p.1 ≠ q.1 ∧ p.2 ≠ q.2)

/-- Opening a session preserves well-formedness. -/
theorem openSession_WF (s : SessionState) (h : SessionWF s) :
    SessionWF (openSession s).1 := by
  obtain ⟨hbound, hpair⟩ := h
  refine ⟨?_, ?_⟩
  · intro p hp
    rcases List.mem_cons.mp hp with rfl | hp2
    · exact ⟨Nat.lt_succ_self _, Nat.lt_succ_self _⟩
    · exact ⟨Nat.lt_succ_of_lt (hbound p hp2).1, Nat.lt_succ_of_lt (hbound p hp2).2⟩
  · refine List.Pairwise.cons ?_ hpair
    intro q hq
    exact ⟨Nat.ne_of_gt (hbound q hq).1, Nat.ne_of_gt (hbound q hq).2⟩

/-- Every event preserves well-formedness. -/
theorem sessionStep_WF (s : SessionState) (e : SessionEvent) (h : SessionWF s) :
    SessionWF (sessionStep s e).1 := by
  cases e with
  | request sid? =>
    cases sid? with
    | none => exact openSession_WF s h
    | some sid =>
      cases hlk : lookupSession s.sessions sid with
      | some t =>
        simp only [sessionStep, hlk]
        exact h
      | none =>
        simp only [sessionStep, hlk]
        exact openSession_WF s h
  | close sid =>
    obtain ⟨hbound, hpair⟩ := h
    refine ⟨?_, ?_⟩
    · intro p hp
      exact hbound p (List.mem_of_mem_filter hp)
    · exact hpair.sublist (List.filter_sublist _)

/-- Every state reachable from the empty map is well-formed. -/
theorem runSession_WF (es : List SessionEvent) :
    SessionWF (runSession initialSessionState es) := by
  have hgen : ∀ (es : List SessionEvent) (s : SessionState), SessionWF s →
      SessionWF (runSession s es) := by
    intro es
    induction es with
    | nil => exact fun s h => h
    | cons e es ih => exact fun s h => ih _ (sessionStep_WF s e h)
  exact hgen es initialSessionState
    ⟨fun p hp => by simp [initialSessionState] at hp, List.Pairwise.nil⟩

/-- C8: over every sequence of request/close events from the empty map, the
session map satisfies: entries are pairwise distinct in session id and in
transport (no two sessions ever share a transport); a request bearing a
known session id reuses exactly that session's transport and leaves the map
unchanged; a request with an unknown or missing session id is served by a
freshly created transport owned by no existing session; closing a session
removes exactly that session's entry and no other; and two consecutive
session creations yield two distinct session ids (and transports). -/
theorem c8_session_map_invariants (es : List SessionEvent) :
    (runSession initialSessionState es).sessions.Pairwise
        (fun p q => p.1 ≠ q.1 ∧ p.2 ≠ q.2)
    ∧ (∀ sid t,
        lookupSession (runSession initialSessionState es).sessions sid = some t →
        sessionStep (runSession initialSessionState es) (.request (some sid))
          = (runSession initialSessionState es, some t))
    ∧ (∀ sid,
        lookupSession (runSession initialSessionState es).sessions sid = none →
        (sessionStep (runSession initialSessionState es) (.request (some sid))).2
            = some (runSession initialSessionState es).nextTid
          ∧ ∀ p ∈ (runSession initialSessionState es).sessions,
              p.2 ≠ (runSession initialSessionState es).nextTid)
    ∧ ((sessionStep (runSession initialSessionState es) (.request none)).2
          = some (runSession initialSessionState es).nextTid
        ∧ ∀ p ∈ (runSession initialSessionState es).sessions,
            p.2 ≠ (runSession initialSessionState es).nextTid)
    ∧ (∀ sid q,
        q ∈ (sessionStep (runSession initialSessionState es) (.close sid)).1.sessions
          ↔ q ∈ (runSession initialSessionState es).sessions ∧ q.1 ≠ sid)
    ∧ ((sessionStep ((sessionStep (runSession initialSessionState es)
            (.request none)).1) (.request none)).1.sessions
          = ((runSession initialSessionState es).nextSid + 1,
              (runSession initialSessionState es).nextTid + 1)
            :: ((runSession initialSessionState es).nextSid,
                (runSession initialSessionState es).nextTid)
            :: (runSession initialSessionState es).sessions
        ∧ (runSession initialSessionState es).nextSid + 1
            ≠ (runSession initialSessionState es).nextSid
        ∧ (runSession initialSessionState es).nextTid + 1
            ≠ (runSession initialSessionState es).nextTid) := by
  obtain ⟨hbound, hpair⟩ := runSession_WF es
  refine ⟨hpair, ?_, ?_, ?_, ?_, ?_⟩
  · intro sid t hlk
    simp only [sessionStep, hlk]
  · intro sid hlk
    refine ⟨by simp only [sessionStep, hlk]; rfl, ?_⟩
    intro p hp
    exact Nat.ne_of_lt (hbound p hp).2
  · refine ⟨rfl, ?_⟩
    intro p hp
    exact Nat.ne_of_lt (hbound p hp).2
  · intro sid q
    constructor
    · intro hq
      have hq2 := List.mem_filter.mp hq
      exact ⟨hq2.1, by simpa using hq2.2⟩
    · intro ⟨hq1, hq2⟩
      exact List.mem_filter.mpr ⟨hq1, by simpa using hq2⟩
  · exact ⟨rfl, Nat.succ_ne_self _, Nat.succ_ne_self _⟩

/-- C8, witness: the trace open, open, close-of-first; the surviving session
id 1 maps to transport 1, and a request carrying it reuses that transport
without touching the map. -/
theorem c8_session_map_invariants_witness :
    lookupSession (runSession initialSessionState
        [.request none, .request none, .close 0]).sessions 1 = some 1
    ∧ sessionStep (runSession initialSessionState
        [.request none, .request none, .close 0]) (.request (some 1))
      = (runSession initialSessionState
          [.request none, .request none, .close 0], some 1) :=
  ⟨by decide,
    (c8_session_map_invariants [.request none, .request none, .close 0]).2.1 1 1 (by decide)⟩

end Luzia
